import Mathlib

/-!
Verification development for the fluent-alchemy repository: a fluent SELECT
query builder over a relational session (`fluent_alchemy/builders/select.py`,
exercised by `tests/test_builders_select.py`) and a scoped-session handler
(`fluent_alchemy/session.py`).

The builder implementation file itself is not part of the provided sources;
its behaviour is modelled from the specification (sections 3, 4.1-4.3) and
pinned, where the repository's own tests fix the observable behaviour, to
those tests.  The session handler is translated directly from
`fluent_alchemy/session.py`.
-/

namespace FluentAlchemy

/-- Sort direction carried by an ordered expression (`.asc()` / `.desc()`). -/
inductive Direction where
  | asc
  | desc
deriving DecidableEq, Repr

/-- Compiled representation of one grouping key, mirroring the three
SQLAlchemy clause classes observed by `test_select_group_by_clause`:
`AnnotatedColumn` for a plain column, `Label` for a labeled expression and
`_textual_label_reference` for a string naming a column/label. -/
inductive GroupByClause where
  | annotatedColumn (colName : String)
  | labelClause (colName labelName : String)
  | textualLabelReference (refName : String)
deriving DecidableEq, Repr

/-- Argument forms accepted by `group_by`: a plain column reference, a
labeled expression, or a string naming a column/label. -/
inductive GroupByArg where
  | column (colName : String)
  | labeled (colName labelName : String)
  | str (refName : String)
deriving DecidableEq, Repr

/-- Modelled from the spec: `group_by(...exprs)` accepts a plain column, a
labeled expression or a string; the string form compiles to a reference
resolved by name at the output-column level (a textual label reference),
not by re-deriving the original column. -/
def compileGroupByArg : GroupByArg → GroupByClause
  | .column c => .annotatedColumn c
  | .labeled c l => .labelClause c l
  | .str s => .textualLabelReference s

/-- Argument forms reaching `order_by`: an expression that already carries a
direction, or a raw unordered column. -/
inductive OrderByArg where
  | directed (colName : String) (dir : Direction)
  | raw (colName : String)
deriving DecidableEq, Repr

/-- Whether an `order_by` argument carries an explicit direction. -/
def OrderByArg.isDirected : OrderByArg → Bool
  | .directed _ _ => true
  | .raw _ => false

/-- The (expression, direction) pair of a directed `order_by` argument. -/
def OrderByArg.toPair : OrderByArg → Option (String × Direction)
  | .directed c d => some (c, d)
  | .raw _ => none

/-- Eager-load strategy hints passed to `options(...)`.  A
`joinedLoadOneToMany` hint corresponds to `joinedload` of a collection
relationship (e.g. `joinedload(User.orders)`); `joinedLoadManyToOne` to a
joined load of a scalar relationship. -/
inductive LoadOption where
  | joinedLoadOneToMany (rel : String)
  | joinedLoadManyToOne (rel : String)
deriving DecidableEq, Repr

/-- Whether a load option is a joined eager load of a one-to-many
(collection) relationship, which multiplies result rows. -/
def LoadOption.isOneToManyJoin : LoadOption → Bool
  | .joinedLoadOneToMany _ => true
  | .joinedLoadManyToOne _ => false

/-- Error kinds surfaced by the builder and its execution layer:
`configurationError` for builder misuse caught at compile time,
`invalidRequestError` for SQLAlchemy's `InvalidRequestError` (raised when a
one-to-many joined load is materialized without de-duplication), and
`attributeNotLoadedError` for reading a field outside a specific-fields
projection. -/
inductive BuilderError where
  | configurationError
  | invalidRequestError
  | attributeNotLoadedError
deriving DecidableEq, Repr

/-- A database row mapped to the target entity: a primary key, a named
attribute valuation, and the keys of the related one-to-many child rows
(used to model row multiplication under a joined eager load). -/
structure Entity where
  pk : Nat
  attrs : List (String × Nat)
  children : List Nat
deriving DecidableEq, Repr

/-- Value of a named attribute of an entity row. -/
def attrVal (e : Entity) (name : String) : Nat :=
  (e.attrs.lookup name).getD 0

/-- A field-projection record returned in specific-fields mode (SQLAlchemy
`Row`): it holds exactly the projected (field, value) pairs. -/
structure FieldRow where
  fields : List (String × Nat)
deriving DecidableEq, Repr

/-- Modelled from the spec: attribute access on a field-projection record
exposes exactly the selected fields; any other attribute fails with
`AttributeNotLoadedError` (surfaced as `AttributeError` in the tests)
rather than returning null or a stale value. -/
def FieldRow.getAttr (r : FieldRow) (name : String) : Except BuilderError Nat :=
  match r.fields.lookup name with
  | some v => .ok v
  | none => .error .attributeNotLoadedError

/-- The accumulated SELECT statement (`builder._select_stmt`): projection,
grouping, having, ordering, offset/limit and eager-load options. -/
structure SelectStmt where
  selectedColumns : List String
  specificFields : Bool
  groupByClauses : List GroupByClause
  havingClauses : List (Entity → Bool)
  orderByClauses : List OrderByArg
  offsetVal : Option Nat
  limitVal : Option Nat
  withOptions : List LoadOption

/-- A compiled, executable query: like the statement but with `order_by`
arguments checked and resolved into (expression, direction) pairs. -/
structure CompiledQuery where
  selectedColumns : List String
  groupByClauses : List GroupByClause
  havingClauses : List (Entity → Bool)
  orderedBy : List (String × Direction)
  offsetVal : Option Nat
  limitVal : Option Nat
  withOptions : List LoadOption

/-- Modelled from the spec: each `order_by` expression must already carry a
direction; a raw unordered column is a configuration error caught at
compile time, not silently defaulted. -/
def compileOrderBy : List OrderByArg → Except BuilderError (List (String × Direction))
  | [] => .ok []
  | .directed c d :: rest => (compileOrderBy rest).map (fun ps => (c, d) :: ps)
  | .raw _ :: _ => .error .configurationError

/-- Modelled from the spec: compilation builds a single executable query
from the accumulated statement; it is side-effect-free and fails with a
configuration error when an `order_by` argument lacks a direction. -/
def compileStmt (s : SelectStmt) : Except BuilderError CompiledQuery :=
  (compileOrderBy s.orderByClauses).map (fun ob =>
    { selectedColumns := s.selectedColumns
      groupByClauses := s.groupByClauses
      havingClauses := s.havingClauses
      orderedBy := ob
      offsetVal := s.offsetVal
      limitVal := s.limitVal
      withOptions := s.withOptions })

/-- Builder state (`SelectBuilder`): the declared columns of the target
entity (in declaration order), the accumulating statement, and the `where`
clauses the builder keeps in its own `_where_clauses` list. -/
structure SelectBuilder where
  targetColumns : List String
  stmtState : SelectStmt
  whereClauses : List (Entity → Bool)

/-- A fresh builder bound to a target entity whose declared columns are
`cols`: the initial statement selects the whole entity. -/
def initBuilder (cols : List String) : SelectBuilder :=
  { targetColumns := cols
    stmtState :=
      { selectedColumns := cols
        specificFields := false
        groupByClauses := []
        havingClauses := []
        orderByClauses := []
        offsetVal := none
        limitVal := none
        withOptions := [] }
    whereClauses := [] }

/-- Argument of a `select(...)` call: the bare entity type, or explicit
column expressions.  `none` at the call site models `select()` with no
arguments. -/
inductive SelectArg where
  | entity
  | columns (cols : List String)

/-- Modelled from the spec: `select()` with no arguments or with the bare
entity type selects all declared columns of the target entity in
declaration order (full-entity mode); explicit column expressions switch to
specific-fields mode with those expressions as the projection. -/
def SelectBuilder.select (b : SelectBuilder) : Option SelectArg → SelectBuilder
  | none =>
      { b with stmtState :=
          { b.stmtState with selectedColumns := b.targetColumns, specificFields := false } }
  | some .entity =>
      { b with stmtState :=
          { b.stmtState with selectedColumns := b.targetColumns, specificFields := false } }
  | some (.columns cols) =>
      { b with stmtState :=
          { b.stmtState with selectedColumns := cols, specificFields := true } }

/-- `where(predicate)`: appends one boolean predicate to the builder's
`_where_clauses`; repeated calls AND-combine. -/
def SelectBuilder.whereClause (b : SelectBuilder) (p : Entity → Bool) : SelectBuilder :=
  { b with whereClauses := b.whereClauses ++ [p] }

/-- `offset(n)`: sets or overwrites the statement's offset; last call wins. -/
def SelectBuilder.offset (b : SelectBuilder) (n : Nat) : SelectBuilder :=
  { b with stmtState := { b.stmtState with offsetVal := some n } }

/-- `limit(n)`: sets or overwrites the statement's limit; last call wins. -/
def SelectBuilder.limit (b : SelectBuilder) (n : Nat) : SelectBuilder :=
  { b with stmtState := { b.stmtState with limitVal := some n } }

/-- `group_by(...exprs)`: appends the compiled grouping keys in call order. -/
def SelectBuilder.groupBy (b : SelectBuilder) (args : List GroupByArg) : SelectBuilder :=
  { b with stmtState :=
      { b.stmtState with
          groupByClauses := b.stmtState.groupByClauses ++ args.map compileGroupByArg } }

/-- `having(predicate)`: appends one predicate over grouped results; it
touches only the having clauses, never the grouping clauses. -/
def SelectBuilder.having (b : SelectBuilder) (p : Entity → Bool) : SelectBuilder :=
  { b with stmtState :=
      { b.stmtState with havingClauses := b.stmtState.havingClauses ++ [p] } }

/-- `order_by(...orderedExprs)`: appends the arguments in call order; the
direction check happens at compile time. -/
def SelectBuilder.orderBy (b : SelectBuilder) (args : List OrderByArg) : SelectBuilder :=
  { b with stmtState :=
      { b.stmtState with orderByClauses := b.stmtState.orderByClauses ++ args } }

/-- `options(...loadHints)`: appends eager-load hints, passed through
opaquely to the statement. -/
def SelectBuilder.options (b : SelectBuilder) (opts : List LoadOption) : SelectBuilder :=
  { b with stmtState :=
      { b.stmtState with withOptions := b.stmtState.withOptions ++ opts } }

/-- One chainable configuration call on the builder. -/
inductive ConfigCall where
  | selectCall (arg : Option SelectArg)
  | whereCall (p : Entity → Bool)
  | offsetCall (n : Nat)
  | limitCall (n : Nat)
  | groupByCall (args : List GroupByArg)
  | havingCall (p : Entity → Bool)
  | orderByCall (args : List OrderByArg)
  | optionsCall (opts : List LoadOption)

/-- Whether a configuration call is a `group_by` call. -/
def ConfigCall.isGroupBy : ConfigCall → Bool
  | .groupByCall _ => true
  | _ => false

/-- Apply one configuration call to the builder. -/
def applyCall (b : SelectBuilder) : ConfigCall → SelectBuilder
  | .selectCall arg => b.select arg
  | .whereCall p => b.whereClause p
  | .offsetCall n => b.offset n
  | .limitCall n => b.limit n
  | .groupByCall args => b.groupBy args
  | .havingCall p => b.having p
  | .orderByCall args => b.orderBy args
  | .optionsCall opts => b.options opts

/-- Apply a chain of configuration calls left to right. -/
def applyCalls (b : SelectBuilder) (cs : List ConfigCall) : SelectBuilder :=
  cs.foldl applyCall b

/-- The table rows matching all of the builder's configured `where`
predicates, implicitly AND-combined, in table order. -/
def matchedRows (b : SelectBuilder) (db : List Entity) : List Entity :=
  db.filter (fun e => b.whereClauses.all (fun p => p e))

/-- Apply a compiled query's offset and limit to an executed row list. -/
def applyWindow (q : CompiledQuery) (rows : List Entity) : List Entity :=
  let dropped := rows.drop (q.offsetVal.getD 0)
  match q.limitVal with
  | none => dropped
  | some n => dropped.take n

/-- Row multiplication performed by a joined eager load of a one-to-many
relationship: a parent with children contributes one row per child, a
parent without children contributes a single row. -/
def joinRows (rows : List Entity) : List Entity :=
  rows.flatMap (fun e => List.replicate (max 1 e.children.length) e)

/-- Raw result handle returned by `execute()`. -/
structure QueryResult where
  rows : List Entity

/-- De-duplication by primary key, first occurrence wins, relative order
preserved. -/
def dedupByPk : List Entity → List Entity
  | [] => []
  | e :: rest => e :: dedupByPk (rest.filter (fun x => x.pk ≠ e.pk))
termination_by l => l.length
decreasing_by
  simp only [List.length_cons]
  exact Nat.lt_succ_of_le (List.length_filter_le _ _)

/-- `unique()` on a result handle: collapses rows representing the same
entity (by primary key) into one. -/
def QueryResult.unique (r : QueryResult) : QueryResult :=
  { rows := dedupByPk r.rows }

/-- `scalars().all()` on a result handle: the materialized entity list. -/
def QueryResult.scalarsAll (r : QueryResult) : List Entity :=
  r.rows

/-- `execute()`: compiles and executes the query, returning a raw result
handle without materialization (and so without de-duplication): with a
one-to-many joined load the rows are multiplied per child. -/
def SelectBuilder.execute (b : SelectBuilder) (db : List Entity) :
    Except BuilderError QueryResult :=
  (compileStmt b.stmtState).map (fun q =>
    let base := matchedRows b db
    let rows := if q.withOptions.any LoadOption.isOneToManyJoin then joinRows base else base
    { rows := applyWindow q rows })

/-- `get()` in full-entity mode: compiles, executes and materializes all
rows as entity instances.  Per the repository test
`test_select_joined_load_unique`, materializing a one-to-many joined load
this way raises `InvalidRequestError` (SQLAlchemy requires `unique()`
first); the de-duplicated path is `execute().unique().scalars().all()`. -/
def SelectBuilder.get (b : SelectBuilder) (db : List Entity) :
    Except BuilderError (List Entity) :=
  match compileStmt b.stmtState with
  | .error e => .error e
  | .ok q =>
      if q.withOptions.any LoadOption.isOneToManyJoin then
        .error .invalidRequestError
      else
        .ok (applyWindow q (matchedRows b db))

/-- Compile a statement, execute it against the filtered table and
materialize each row as a field-projection record holding exactly the
selected columns. -/
def runSpecific (s : SelectStmt) (wheres : List (Entity → Bool)) (db : List Entity) :
    Except BuilderError (List FieldRow) :=
  (compileStmt s).map (fun q =>
    (applyWindow q (db.filter (fun e => wheres.all (fun p => p e)))).map (fun e =>
      { fields := q.selectedColumns.map (fun c => (c, attrVal e c)) }))

/-- `get(specific_fields=True)`: materializes each row as a
field-projection record holding exactly the selected columns. -/
def SelectBuilder.getSpecific (b : SelectBuilder) (db : List Entity) :
    Except BuilderError (List FieldRow) :=
  runSpecific b.stmtState b.whereClauses db

/-- `first()`: runs the query with an implicit `limit(1)` applied to a
per-call copy of the statement — the builder's own statement is not
reassigned — and returns the single result or `none` on an empty result.
The builder state observable after the call is returned alongside. -/
def SelectBuilder.first (b : SelectBuilder) (db : List Entity) :
    Except BuilderError (Option Entity) × SelectBuilder :=
  let callStmt := { b.stmtState with limitVal := some 1 }
  (match compileStmt callStmt with
   | .error e => .error e
   | .ok q =>
       if q.withOptions.any LoadOption.isOneToManyJoin then
         .error .invalidRequestError
       else
         .ok (applyWindow q (matchedRows b db)).head?, b)

/-- `first(specific_fields=True)`: the specific-fields variant of `first`,
again with `limit(1)` applied only to a per-call copy of the statement. -/
def SelectBuilder.firstSpecific (b : SelectBuilder) (db : List Entity) :
    Except BuilderError (Option FieldRow) × SelectBuilder :=
  ((runSpecific { b.stmtState with limitVal := some 1 } b.whereClauses db).map List.head?,
   b)

/-- The pagination structure returned by `paginate(page, per_page)`. -/
structure PaginateResult where
  data : List Entity
  total : Nat
  perPage : Nat
  currentPage : Nat
  lastPage : Nat
deriving DecidableEq, Repr

/-- Modelled from the spec (pagination protocol): `total` is the count of
rows matching all configured filters, executed as an independent count
query over the same filter state; `last_page` is the ceiling of
`total / per_page` (0 when `total` is 0); the page query applies
`offset = (page-1)*per_page` and `limit = per_page` and materializes full
entities. -/
def SelectBuilder.paginate (b : SelectBuilder) (db : List Entity) (page perPage : Nat) :
    Except BuilderError PaginateResult :=
  (compileStmt b.stmtState).map (fun _ =>
    let total := (matchedRows b db).length
    let pageRows := ((matchedRows b db).drop ((page - 1) * perPage)).take perPage
    { data := pageRows
      total := total
      perPage := perPage
      currentPage := page
      lastPage := (total + perPage - 1) / perPage })

/-- Ceiling division, written the way the specification words it
(`math.ceil(total / per_page)`): the quotient, plus one when there is a
remainder. -/
def specCeilDiv (a b : Nat) : Nat :=
  a / b + (if a % b = 0 then 0 else 1)

/-- Argument passed to `ScopedSessionHandler.make_session`: either a
SQLAlchemy `Engine` (identified by a key) or some other object. -/
inductive SessionArg where
  | engine (eid : Nat)
  | notEngine (tag : String)
deriving DecidableEq, Repr

/-- `isinstance(engine, Engine)` check of `make_session`. -/
def SessionArg.isEngine : SessionArg → Bool
  | .engine _ => true
  | .notEngine _ => false

/-- The key of the engine argument (0 for a non-engine). -/
def SessionArg.engineId : SessionArg → Nat
  | .engine eid => eid
  | .notEngine _ => 0

/-- Class-level state of `ScopedSessionHandler`: the stored scoped session,
identified by the engine that produced it. -/
structure ScopedSessionHandler where
  storedSession : Option Nat
deriving DecidableEq, Repr

/-- `ValueError` raised by `make_session` for a non-Engine argument. -/
inductive PyError where
  | valueError
deriving DecidableEq, Repr

/-- Translated from `fluent_alchemy/session.py`: `make_session` raises
`ValueError` unless the argument is a SQLAlchemy `Engine`, and otherwise
replaces the class-level `_session` with a fresh scoped session built from
that engine.  The pair returned is the state after the call and the raised
error, if any. -/
def make_session (st : ScopedSessionHandler) (arg : SessionArg) :
    ScopedSessionHandler × Option PyError :=
  if arg.isEngine then
    ({ storedSession := some arg.engineId }, none)
  else
    (st, some .valueError)

/-- Translated from `fluent_alchemy/session.py`: `teardown_session` removes
the scoped session when one is stored. -/
def teardown_session (st : ScopedSessionHandler) : ScopedSessionHandler :=
  match st.storedSession with
  | some _ => { storedSession := none }
  | none => st

/-- A user row fixture with primary key `i` and no related children. -/
def mkUser (i : Nat) : Entity :=
  { pk := i, attrs := [], children := [] }

/-- A table of `n` user rows. -/
def usersDb (n : Nat) : List Entity :=
  (List.range n).map mkUser

lemma pred_mul_add (page perPage : Nat) (hp : 1 ≤ page) :
    (page - 1) * perPage + perPage = page * perPage := by
  have h : page - 1 + 1 = page := Nat.sub_add_cancel hp
  calc (page - 1) * perPage + perPage = ((page - 1) + 1) * perPage := by ring
    _ = page * perPage := by rw [h]

lemma ceil_formula (a b : Nat) (hb : 0 < b) : (a + b - 1) / b = specCeilDiv a b := by
  obtain ⟨q, r, rfl, hr⟩ : ∃ q r, a = b * q + r ∧ r < b :=
    ⟨a / b, a % b, (Nat.div_add_mod a b).symm, Nat.mod_lt a hb⟩
  have hmod : (b * q + r) % b = r := by
    rw [Nat.mul_add_mod]
    exact Nat.mod_eq_of_lt hr
  have hdiv : (b * q + r) / b = q := by
    rw [Nat.mul_add_div hb, Nat.div_eq_of_lt hr]
    omega
  unfold specCeilDiv
  rcases Nat.eq_zero_or_pos r with rfl | hrpos
  · rw [hmod, hdiv, if_pos rfl]
    have h1 : b * q + 0 + b - 1 = b * q + (b - 1) := by omega
    rw [h1, Nat.mul_add_div hb, Nat.div_eq_of_lt (show b - 1 < b by omega)]
  · rw [hmod, hdiv, if_neg (by omega)]
    have h1 : b * q + r + b - 1 = b * q + (r - 1 + b) := by omega
    rw [h1, Nat.mul_add_div hb, Nat.add_div_right _ hb,
      Nat.div_eq_of_lt (show r - 1 < b by omega)]

lemma exists_ok_of_isOk {α : Type} (x : Except BuilderError α) (h : x.isOk = true) :
    ∃ v, x = .ok v := by
  cases x with
  | error e => simp [Except.isOk, Except.toBool] at h
  | ok v => exact ⟨v, rfl⟩

/-- C1: for every total ≥ 0, page ≥ 1 and perPage ≥ 1, `paginate(page,
perPage)` returns a structure whose `last_page` equals
ceiling(total / perPage) (0 when total is 0), whose `total`, `per_page` and
`current_page` echo the count and the arguments, and whose `data` has
length `perPage` on a full page and is shorter on the last page. -/
theorem paginate_arithmetic (b : SelectBuilder) (db : List Entity) (page perPage : Nat)
    (hok : (compileStmt b.stmtState).isOk = true) (hp : 1 ≤ page) (hpp : 1 ≤ perPage) :
    (b.paginate db page perPage).map PaginateResult.total
      = .ok (matchedRows b db).length ∧
    (b.paginate db page perPage).map PaginateResult.perPage = .ok perPage ∧
    (b.paginate db page perPage).map PaginateResult.currentPage = .ok page ∧
    (b.paginate db page perPage).map PaginateResult.lastPage
      = .ok (specCeilDiv (matchedRows b db).length perPage) ∧
    ((matchedRows b db).length = 0 →
      (b.paginate db page perPage).map PaginateResult.lastPage = .ok 0) ∧
    (page * perPage ≤ (matchedRows b db).length →
      (b.paginate db page perPage).map (fun r => r.data.length) = .ok perPage) ∧
    ((page - 1) * perPage < (matchedRows b db).length →
      (matchedRows b db).length < page * perPage →
      (b.paginate db page perPage).map (fun r => r.data.length)
        = .ok ((matchedRows b db).length - (page - 1) * perPage) ∧
      (matchedRows b db).length - (page - 1) * perPage < perPage) := by
  obtain ⟨q, hq⟩ := exists_ok_of_isOk _ hok
  have hmul := pred_mul_add page perPage hp
  simp only [SelectBuilder.paginate, hq, Except.map]
  refine ⟨trivial, trivial, trivial, ?_, ?_, ?_, ?_⟩
  · rw [ceil_formula _ _ (by omega)]
  · intro h0
    rw [h0]
    have : (0 + perPage - 1) / perPage = 0 := Nat.div_eq_of_lt (by omega)
    rw [this]
  · intro hfull
    have hlen : (((matchedRows b db).drop ((page - 1) * perPage)).take perPage).length
        = min perPage ((matchedRows b db).length - (page - 1) * perPage) := by
      simp [List.length_take, List.length_drop]
    rw [hlen]
    congr 1
    omega
  · intro hlast hshort
    have hlen : (((matchedRows b db).drop ((page - 1) * perPage)).take perPage).length
        = min perPage ((matchedRows b db).length - (page - 1) * perPage) := by
      simp [List.length_take, List.length_drop]
    constructor
    · rw [hlen]
      congr 1
      omega
    · omega

/-- Witness for C1 at the spec's concrete instances: 50 rows with
`per_page = 15`, `page = 2` give `last_page = 4` and a full page of 15
rows; 23 rows give a short page of 8 rows. -/
theorem paginate_arithmetic_witness :
    ((initBuilder ["id"]).paginate (usersDb 50) 2 15).map PaginateResult.lastPage
      = .ok 4 ∧
    ((initBuilder ["id"]).paginate (usersDb 50) 2 15).map (fun r => r.data.length)
      = .ok 15 ∧
    ((initBuilder ["id"]).paginate (usersDb 23) 2 15).map (fun r => r.data.length)
      = .ok 8 := by
  have h50 := paginate_arithmetic (initBuilder ["id"]) (usersDb 50) 2 15 rfl
    (by decide) (by decide)
  have h23 := paginate_arithmetic (initBuilder ["id"]) (usersDb 23) 2 15 rfl
    (by decide) (by decide)
  refine ⟨?_, ?_, ?_⟩
  · rw [h50.2.2.2.1]
    rfl
  · have := h50.2.2.2.2.2.1 (by decide)
    exact this
  · have := (h23.2.2.2.2.2.2 (by decide) (by decide)).1
    rw [this]
    rfl

/-- C10: `ScopedSessionHandler.make_session` raises `ValueError` for every
argument that is not a SQLAlchemy `Engine`, leaving the stored class-level
`_session` unchanged; for every `Engine` argument it succeeds and
unconditionally replaces `_session` with a new scoped session, so the last
successful call wins. -/
theorem make_session_spec (st : ScopedSessionHandler) (a a1 a2 : SessionArg)
    (hna : a.isEngine = false) (h1 : a1.isEngine = true) (h2 : a2.isEngine = true) :
    make_session st a = (st, some PyError.valueError) ∧
    (make_session st a1).1.storedSession = some a1.engineId ∧
    (make_session st a1).2 = none ∧
    (make_session (make_session st a1).1 a2).1.storedSession = some a2.engineId := by
  refine ⟨?_, ?_, ?_, ?_⟩ <;> simp [make_session, hna, h1, h2]

/-- Witness for C10: a non-engine argument raises and preserves the stored
session; two successive engine arguments leave the second engine's session
stored. -/
theorem make_session_spec_witness :
    make_session ⟨some 7⟩ (SessionArg.notEngine "str") = (⟨some 7⟩, some PyError.valueError) ∧
    (make_session ⟨some 7⟩ (SessionArg.engine 1)).1.storedSession = some 1 ∧
    (make_session ⟨some 7⟩ (SessionArg.engine 1)).2 = none ∧
    (make_session (make_session ⟨some 7⟩ (SessionArg.engine 1)).1
      (SessionArg.engine 2)).1.storedSession = some 2 := by
  have h := make_session_spec ⟨some 7⟩ (SessionArg.notEngine "str")
    (SessionArg.engine 1) (SessionArg.engine 2) (by decide) (by decide) (by decide)
  exact ⟨h.1, h.2.1, h.2.2.1, h.2.2.2⟩

lemma compileStmt_fields (s : SelectStmt) (q : CompiledQuery)
    (h : compileStmt s = .ok q) :
    q.selectedColumns = s.selectedColumns ∧ q.groupByClauses = s.groupByClauses ∧
    q.offsetVal = s.offsetVal ∧ q.limitVal = s.limitVal ∧
    q.withOptions = s.withOptions := by
  unfold compileStmt at h
  cases hob : compileOrderBy s.orderByClauses with
  | error e =>
      rw [hob] at h
      simp [Except.map] at h
  | ok ob =>
      rw [hob] at h
      simp only [Except.map] at h
      injection h with h'
      subst h'
      exact ⟨rfl, rfl, rfl, rfl, rfl⟩

/-- C2: the `total` field returned by `paginate` is computed from the same
filter state as the page query: it equals the number of rows returned by
`get()` on a builder with the same filters (and no offset/limit or
one-to-many joined load). -/
theorem paginate_total_matches_get (b : SelectBuilder) (db : List Entity)
    (page perPage : Nat)
    (hoff : b.stmtState.offsetVal = none) (hlim : b.stmtState.limitVal = none)
    (hopt : b.stmtState.withOptions.any LoadOption.isOneToManyJoin = false) :
    (b.paginate db page perPage).map PaginateResult.total
      = (b.get db).map List.length := by
  cases hq : compileStmt b.stmtState with
  | error e => simp [SelectBuilder.paginate, SelectBuilder.get, hq, Except.map]
  | ok q =>
      obtain ⟨-, -, hqo, hql, hqw⟩ := compileStmt_fields _ _ hq
      have hjoin : q.withOptions.any LoadOption.isOneToManyJoin = false := by
        rw [hqw]; exact hopt
      simp only [SelectBuilder.paginate, SelectBuilder.get, hq, Except.map, hjoin,
        Bool.false_eq_true, if_false]
      rw [applyWindow, hqo, hql]
      simp [hoff, hlim]

/-- Witness for C2: a builder filtering on even primary keys over a table
of 50 users has `paginate` report `total = 25`, the length of `get()`. -/
theorem paginate_total_matches_get_witness :
    (((initBuilder ["id"]).whereClause (fun e => e.pk % 2 == 0)).paginate
        (usersDb 50) 2 15).map PaginateResult.total
      = (((initBuilder ["id"]).whereClause (fun e => e.pk % 2 == 0)).get
            (usersDb 50)).map List.length :=
  paginate_total_matches_get
    ((initBuilder ["id"]).whereClause (fun e => e.pk % 2 == 0))
    (usersDb 50) 2 15 rfl rfl rfl

lemma applyCall_groupByClauses (b : SelectBuilder) (c : ConfigCall)
    (h : c.isGroupBy = false) :
    (applyCall b c).stmtState.groupByClauses = b.stmtState.groupByClauses := by
  cases c with
  | selectCall arg =>
      cases arg with
      | none => rfl
      | some a => cases a <;> rfl
  | whereCall p => rfl
  | offsetCall n => rfl
  | limitCall n => rfl
  | groupByCall args => simp [ConfigCall.isGroupBy] at h
  | havingCall p => rfl
  | orderByCall args => rfl
  | optionsCall opts => rfl

lemma applyCalls_groupByClauses (cs : List ConfigCall) (b : SelectBuilder)
    (h : ∀ c ∈ cs, c.isGroupBy = false) :
    (applyCalls b cs).stmtState.groupByClauses = b.stmtState.groupByClauses := by
  induction cs generalizing b with
  | nil => rfl
  | cons c cs ih =>
      have hcs : applyCalls b (c :: cs) = applyCalls (applyCall b c) cs := rfl
      rw [hcs, ih (applyCall b c) (fun c' hc' => h c' (List.mem_cons_of_mem c hc')),
        applyCall_groupByClauses b c (h c (List.mem_cons_self c cs))]

/-- C5: a builder on which `having` was called without any `group_by` call
compiles with zero grouping expressions: HAVING with no GROUP BY does not
introduce or attach any group-by clause artifact. -/
theorem having_without_group_by (cols : List String) (calls1 calls2 : List ConfigCall)
    (p : Entity → Bool)
    (h : ∀ c ∈ calls1 ++ calls2, c.isGroupBy = false) :
    (applyCalls (initBuilder cols)
        (calls1 ++ ConfigCall.havingCall p :: calls2)).stmtState.groupByClauses = [] ∧
    ∀ q, compileStmt (applyCalls (initBuilder cols)
        (calls1 ++ ConfigCall.havingCall p :: calls2)).stmtState = .ok q →
      q.groupByClauses = [] := by
  have hall : ∀ c ∈ calls1 ++ ConfigCall.havingCall p :: calls2, c.isGroupBy = false := by
    intro c hc
    rcases List.mem_append.1 hc with h1 | h2
    · exact h c (List.mem_append.2 (Or.inl h1))
    · rcases List.mem_cons.1 h2 with rfl | h3
      · rfl
      · exact h c (List.mem_append.2 (Or.inr h3))
  have hstate :
      (applyCalls (initBuilder cols)
        (calls1 ++ ConfigCall.havingCall p :: calls2)).stmtState.groupByClauses = [] := by
    rw [applyCalls_groupByClauses _ _ hall]
    rfl
  refine ⟨hstate, fun q hq => ?_⟩
  obtain ⟨-, hg, -, -, -⟩ := compileStmt_fields _ _ hq
  rw [hg, hstate]

/-- Witness for C5: a single `having` call on a fresh builder leaves the
grouping clause list empty. -/
theorem having_without_group_by_witness :
    (applyCalls (initBuilder ["id"])
        ([] ++ ConfigCall.havingCall (fun e => decide (e.pk > 0)) :: [])).stmtState.groupByClauses
      = [] :=
  (having_without_group_by ["id"] [] [] (fun e => decide (e.pk > 0))
    (by intro c hc; simp at hc)).1

/-- C6: `group_by` with a string compiles to a textual-label-reference
grouping key, a representation distinct from the plain-column form and
from the labeled-expression form. -/
theorem group_by_string_textual (b : SelectBuilder) (s c cl ll : String) :
    (b.groupBy [GroupByArg.str s]).stmtState.groupByClauses
      = b.stmtState.groupByClauses ++ [GroupByClause.textualLabelReference s] ∧
    compileGroupByArg (GroupByArg.str s) = GroupByClause.textualLabelReference s ∧
    compileGroupByArg (GroupByArg.str s) ≠ compileGroupByArg (GroupByArg.column c) ∧
    compileGroupByArg (GroupByArg.str s) ≠ compileGroupByArg (GroupByArg.labeled cl ll) := by
  refine ⟨rfl, rfl, ?_, ?_⟩ <;> simp [compileGroupByArg]

/-- C7: `select()` with no arguments and `select(Entity)` with the bare
entity type are equivalent and both project every declared column of the
target entity, in declaration order, keeping the builder in full-entity
mode. -/
theorem select_no_args_entity_equiv (b : SelectBuilder) :
    b.select none = b.select (some SelectArg.entity) ∧
    (b.select none).stmtState.selectedColumns = b.targetColumns ∧
    (b.select none).stmtState.specificFields = false ∧
    (b.select (some SelectArg.entity)).stmtState.selectedColumns = b.targetColumns ∧
    (b.select (some SelectArg.entity)).stmtState.specificFields = false :=
  ⟨rfl, rfl, rfl, rfl, rfl⟩

lemma compileOrderBy_all_directed (args : List OrderByArg)
    (h : ∀ a ∈ args, a.isDirected = true) :
    compileOrderBy args = .ok (args.filterMap OrderByArg.toPair) := by
  induction args with
  | nil => rfl
  | cons a rest ih =>
      cases a with
      | directed c d =>
          rw [compileOrderBy, ih (fun x hx => h x (List.mem_cons_of_mem _ hx))]
          rfl
      | raw c =>
          have := h (.raw c) (List.mem_cons_self _ _)
          simp [OrderByArg.isDirected] at this

lemma compileOrderBy_raw (args : List OrderByArg) (a : OrderByArg)
    (ha : a ∈ args) (hdir : a.isDirected = false) :
    compileOrderBy args = .error .configurationError := by
  induction args with
  | nil => simp at ha
  | cons x rest ih =>
      cases x with
      | directed c d =>
          rcases List.mem_cons.1 ha with rfl | hmem
          · simp [OrderByArg.isDirected] at hdir
          · rw [compileOrderBy, ih hmem]
            rfl
      | raw c => rfl

/-- C9: an `order_by` argument without an explicit direction makes
compilation fail with a configuration error, rather than silently
defaulting a direction; directed arguments are appended and compiled as
(expression, direction) pairs in call order. -/
theorem order_by_direction_check (b : SelectBuilder) (args : List OrderByArg)
    (s : SelectStmt) :
    (b.orderBy args).stmtState.orderByClauses = b.stmtState.orderByClauses ++ args ∧
    (∀ a ∈ s.orderByClauses, a.isDirected = false →
      compileStmt s = .error .configurationError) ∧
    ((∀ a ∈ s.orderByClauses, a.isDirected = true) →
      (compileStmt s).map CompiledQuery.orderedBy
        = .ok (s.orderByClauses.filterMap OrderByArg.toPair)) := by
  refine ⟨rfl, ?_, ?_⟩
  · intro a ha hdir
    unfold compileStmt
    rw [compileOrderBy_raw _ _ ha hdir]
    rfl
  · intro h
    unfold compileStmt
    rw [compileOrderBy_all_directed _ h]
    rfl

/-- Witness for C9: a raw `order_by` column makes compilation fail; two
directed columns compile to their (expression, direction) pairs in order. -/
theorem order_by_direction_check_witness :
    compileStmt { (initBuilder ["id"]).stmtState with
        orderByClauses := [OrderByArg.raw "name"] } = .error .configurationError ∧
    (compileStmt { (initBuilder ["id"]).stmtState with
        orderByClauses := [OrderByArg.directed "name" Direction.asc,
          OrderByArg.directed "created_at" Direction.asc] }).map CompiledQuery.orderedBy
      = .ok [("name", Direction.asc), ("created_at", Direction.asc)] := by
  constructor
  · exact (order_by_direction_check (initBuilder ["id"]) []
      { (initBuilder ["id"]).stmtState with
          orderByClauses := [OrderByArg.raw "name"] }).2.1
      (OrderByArg.raw "name") (by simp) rfl
  · have h := (order_by_direction_check (initBuilder ["id"]) []
      { (initBuilder ["id"]).stmtState with
          orderByClauses := [OrderByArg.directed "name" Direction.asc,
            OrderByArg.directed "created_at" Direction.asc] }).2.2
      (by intro a ha; fin_cases ha <;> rfl)
    rw [h]
    rfl

/-- C8: `first()` behaves as `get()` with `limit(1)` applied only for that
call, returning the single result or `none` when the result set is empty;
the builder's persisted limit state is unchanged, so a subsequent `get()`
on the same builder is unaffected. -/
theorem first_limit_per_call (b : SelectBuilder) (db : List Entity) :
    (b.first db).1 = ((b.limit 1).get db).map List.head? ∧
    (b.first db).2 = b ∧
    ((b.first db).2).get db = b.get db ∧
    ((b.limit 1).get db = .ok [] → (b.first db).1 = .ok none) := by
  have h1 : (b.first db).1 = ((b.limit 1).get db).map List.head? := by
    simp only [SelectBuilder.first, SelectBuilder.get, SelectBuilder.limit]
    cases hq : compileStmt { b.stmtState with limitVal := some 1 } with
    | error e => simp [Except.map]
    | ok q =>
        cases hjoin : q.withOptions.any LoadOption.isOneToManyJoin <;>
          simp [Except.map, hjoin, matchedRows]
  refine ⟨h1, rfl, rfl, fun hempty => ?_⟩
  rw [h1, hempty]
  rfl

/-- Witness for C8: on an empty table, `first()` returns `none`, and the
builder handed back by the call is the builder itself. -/
theorem first_limit_per_call_witness :
    ((initBuilder ["id"]).first []).1 = .ok none ∧
    ((initBuilder ["id"]).first []).2 = initBuilder ["id"] := by
  have h := first_limit_per_call (initBuilder ["id"]) []
  exact ⟨h.2.2.2 rfl, h.2.1⟩

lemma lookup_proj_isSome (cols : List String) (f : String → Nat) (a : String) :
    ((cols.map (fun c => (c, f c))).lookup a).isSome = true ↔ a ∈ cols := by
  induction cols with
  | nil => simp [List.lookup]
  | cons c cs ih =>
      by_cases h : a = c
      · subst h
        simp [List.lookup]
      · have hbeq : (a == c) = false := by
          simp [h]
        simp [List.lookup, hbeq, ih, h]

lemma projRow_getAttr_isOk (cols : List String) (f : String → Nat) (a : String) :
    ((FieldRow.mk (cols.map (fun c => (c, f c)))).getAttr a).isOk = true ↔ a ∈ cols := by
  rw [← lookup_proj_isSome cols f a]
  unfold FieldRow.getAttr
  cases (cols.map (fun c => (c, f c))).lookup a <;>
    simp [Except.isOk, Except.toBool, Option.isSome]

lemma projRow_getAttr_not_loaded (cols : List String) (f : String → Nat) (a : String)
    (h : a ∉ cols) :
    (FieldRow.mk (cols.map (fun c => (c, f c)))).getAttr a
      = .error .attributeNotLoadedError := by
  have hs : ((cols.map (fun c => (c, f c))).lookup a).isSome = true ↔ a ∈ cols :=
    lookup_proj_isSome cols f a
  unfold FieldRow.getAttr
  cases hl : (cols.map (fun c => (c, f c))).lookup a with
  | none => rfl
  | some v =>
      rw [hl] at hs
      exact absurd (hs.1 rfl) h

lemma runSpecific_shape (s : SelectStmt) (wheres : List (Entity → Bool))
    (db : List Entity) (rows : List FieldRow)
    (h : runSpecific s wheres db = .ok rows) :
    ∀ r ∈ rows, ∃ e : Entity,
      r = FieldRow.mk (s.selectedColumns.map (fun c => (c, attrVal e c))) := by
  intro r hr
  unfold runSpecific at h
  cases hq : compileStmt s with
  | error e =>
      rw [hq] at h
      simp [Except.map] at h
  | ok q =>
      obtain ⟨hqsel, -, -, -, -⟩ := compileStmt_fields _ _ hq
      rw [hq] at h
      simp only [Except.map] at h
      injection h with h'
      subst h'
      obtain ⟨e, -, rfl⟩ := List.mem_map.1 hr
      rw [hqsel]
      exact ⟨e, rfl⟩

/-- C4: in specific-fields mode (`get`/`first` with `specific_fields=True`
after `select` with explicit columns), each returned record exposes
exactly the selected fields, and reading any non-selected field fails with
`AttributeNotLoadedError` rather than returning null or a stale value. -/
theorem specific_fields_projection (b : SelectBuilder) (db : List Entity)
    (cols : List String) (rows : List FieldRow)
    (hcols : b.stmtState.selectedColumns = cols)
    (hrows : b.getSpecific db = .ok rows) :
    (∀ r ∈ rows, ∀ a : String,
      ((r.getAttr a).isOk = true ↔ a ∈ cols) ∧
      (a ∉ cols → r.getAttr a = .error .attributeNotLoadedError)) ∧
    (∀ r : FieldRow, (b.firstSpecific db).1 = .ok (some r) → ∀ a : String,
      ((r.getAttr a).isOk = true ↔ a ∈ cols) ∧
      (a ∉ cols → r.getAttr a = .error .attributeNotLoadedError)) := by
  constructor
  · intro r hr a
    obtain ⟨e, rfl⟩ := runSpecific_shape b.stmtState b.whereClauses db rows hrows r hr
    rw [hcols]
    exact ⟨projRow_getAttr_isOk cols (attrVal e) a,
      projRow_getAttr_not_loaded cols (attrVal e) a⟩
  · intro r hr a
    have hr1 : (runSpecific { b.stmtState with limitVal := some 1 } b.whereClauses db).map
        List.head? = .ok (some r) := hr
    cases hrs : runSpecific { b.stmtState with limitVal := some 1 } b.whereClauses db with
    | error e =>
        rw [hrs] at hr1
        simp [Except.map] at hr1
    | ok rows1 =>
        rw [hrs] at hr1
        simp only [Except.map] at hr1
        injection hr1 with hr2
        have hmem : r ∈ rows1 := by
          cases rows1 with
          | nil => simp at hr2
          | cons x xs =>
              simp only [List.head?] at hr2
              injection hr2 with hx
              rw [← hx]
              exact List.mem_cons_self _ _
        obtain ⟨e, rfl⟩ := runSpecific_shape _ _ _ _ hrs r hmem
        have hsel : ({ b.stmtState with limitVal := some 1 } : SelectStmt).selectedColumns
            = cols := hcols
        rw [hsel]
        exact ⟨projRow_getAttr_isOk cols (attrVal e) a,
          projRow_getAttr_not_loaded cols (attrVal e) a⟩

/-- The table used to exercise specific-fields mode. -/
def dbSpecific : List Entity :=
  [{ pk := 1, attrs := [("id", 1), ("name", 10), ("email", 20)], children := [] }]

/-- A builder that selected only the `name` and `email` columns. -/
def bSpecific : SelectBuilder :=
  (initBuilder ["id", "name", "email"]).select (some (SelectArg.columns ["name", "email"]))

/-- Witness for C4: on a concrete row, the projected record answers `name`
and refuses `id` with `AttributeNotLoadedError`. -/
theorem specific_fields_projection_witness :
    ((FieldRow.mk [("name", 10), ("email", 20)]).getAttr "name").isOk = true ∧
    (FieldRow.mk [("name", 10), ("email", 20)]).getAttr "id"
      = .error .attributeNotLoadedError := by
  have h := specific_fields_projection bSpecific dbSpecific ["name", "email"]
    [FieldRow.mk [("name", 10), ("email", 20)]] rfl rfl
  have hmem : FieldRow.mk [("name", 10), ("email", 20)]
      ∈ [FieldRow.mk [("name", 10), ("email", 20)]] := List.mem_singleton.2 rfl
  exact ⟨(h.1 _ hmem "name").1.2 (by decide), (h.1 _ hmem "id").2 (by decide)⟩

lemma dedupByPk_nil : dedupByPk [] = [] := by
  rw [dedupByPk]

lemma dedupByPk_cons (e : Entity) (rest : List Entity) :
    dedupByPk (e :: rest) = e :: dedupByPk (rest.filter (fun x => x.pk ≠ e.pk)) := by
  rw [dedupByPk]

lemma mem_joinRows {x : Entity} {l : List Entity} (h : x ∈ joinRows l) : x ∈ l := by
  simp only [joinRows, List.mem_flatMap] at h
  obtain ⟨a, ha, hx⟩ := h
  rw [List.eq_of_mem_replicate hx]
  exact ha

lemma dedupByPk_sublist (l : List Entity) : (dedupByPk l).Sublist l := by
  induction l using dedupByPk.induct with
  | case1 => simp [dedupByPk]
  | case2 e rest ih =>
      rw [dedupByPk_cons]
      exact List.Sublist.cons₂ e (ih.trans (List.filter_sublist rest))

lemma dedupByPk_pk_nodup (l : List Entity) : ((dedupByPk l).map Entity.pk).Nodup := by
  induction l using dedupByPk.induct with
  | case1 => simp [dedupByPk]
  | case2 e rest ih =>
      rw [dedupByPk_cons]
      simp only [List.map_cons, List.nodup_cons]
      refine ⟨?_, ih⟩
      intro hmem
      obtain ⟨x, hx, hpk⟩ := List.mem_map.1 hmem
      have hx' : x ∈ rest.filter (fun y => decide (y.pk ≠ e.pk)) :=
        (dedupByPk_sublist _).subset hx
      have : x.pk ≠ e.pk := of_decide_eq_true (List.mem_filter.1 hx').2
      exact this hpk

lemma dedupByPk_joinRows (rows : List Entity) (h : (rows.map Entity.pk).Nodup) :
    dedupByPk (joinRows rows) = rows := by
  induction rows with
  | nil =>
      rw [show joinRows [] = ([] : List Entity) from rfl, dedupByPk_nil]
  | cons e rest ih =>
      rw [List.map_cons] at h
      have hnd := List.nodup_cons.1 h
      have hrepl : List.replicate (max 1 e.children.length) e
          = e :: List.replicate (max 1 e.children.length - 1) e := by
        have hm : max 1 e.children.length = (max 1 e.children.length - 1) + 1 := by omega
        rw [hm]
        rfl
      have hjoin : joinRows (e :: rest)
          = e :: (List.replicate (max 1 e.children.length - 1) e ++ joinRows rest) := by
        have : joinRows (e :: rest)
            = List.replicate (max 1 e.children.length) e ++ joinRows rest := by
          simp [joinRows, List.flatMap_cons]
        rw [this, hrepl]
        rfl
      rw [hjoin, dedupByPk_cons]
      congr 1
      rw [List.filter_append]
      have h1 : (List.replicate (max 1 e.children.length - 1) e).filter
          (fun x => decide (x.pk ≠ e.pk)) = [] := by
        apply List.filter_eq_nil_iff.2
        intro x hx
        rw [List.eq_of_mem_replicate hx]
        simp
      have h2 : (joinRows rest).filter (fun x => decide (x.pk ≠ e.pk)) = joinRows rest := by
        apply List.filter_eq_self.2
        intro x hx
        have hxr : x ∈ rest := mem_joinRows hx
        have hpk : x.pk ∈ rest.map Entity.pk := List.mem_map_of_mem _ hxr
        apply decide_eq_true
        intro heq
        rw [heq] at hpk
        exact hnd.1 hpk
      rw [h1, h2, List.nil_append]
      exact ih hnd.2

/-- The table used to exercise a one-to-many joined eager load: the first
user has two related orders, so its joined fetch produces two rows. -/
def dbJoined : List Entity :=
  [{ pk := 1, attrs := [], children := [101, 102] },
   { pk := 2, attrs := [], children := [103] }]

/-- A builder carrying a joined eager load of the one-to-many `orders`
relationship. -/
def bJoined : SelectBuilder :=
  (initBuilder ["id"]).options [LoadOption.joinedLoadOneToMany "orders"]

/-- Counterexample to C3: with eager-load options for a one-to-many
relationship set, `get()` does not return a de-duplicated sequence — it
raises `InvalidRequestError` (exactly what the repository test
`test_select_joined_load_unique` expects). -/
theorem get_joined_load_counterexample :
    bJoined.get dbJoined = .error .invalidRequestError ∧
    bJoined.get dbJoined ≠ .ok (dedupByPk (joinRows (matchedRows bJoined dbJoined))) := by
  refine ⟨rfl, fun h => ?_⟩
  rw [show bJoined.get dbJoined = .error .invalidRequestError from rfl] at h
  exact Except.noConfusion h

/-- C3 (amended): with eager-load options for a one-to-many relationship
set, `get()` raises `InvalidRequestError`; the de-duplicated sequence —
exactly one entity per distinct primary key, first-seen order preserved —
is obtained through `execute().unique().scalars().all()`. -/
theorem get_joined_load (b : SelectBuilder) (db : List Entity)
    (hok : (compileStmt b.stmtState).isOk = true)
    (hjoin : b.stmtState.withOptions.any LoadOption.isOneToManyJoin = true)
    (hoff : b.stmtState.offsetVal = none) (hlim : b.stmtState.limitVal = none)
    (hnodup : ((matchedRows b db).map Entity.pk).Nodup) :
    b.get db = .error .invalidRequestError ∧
    (b.execute db).map (fun r => r.unique.scalarsAll) = .ok (matchedRows b db) ∧
    (∀ r : QueryResult, b.execute db = .ok r →
      ((r.unique.scalarsAll).map Entity.pk).Nodup) := by
  obtain ⟨q, hq⟩ := exists_ok_of_isOk _ hok
  obtain ⟨-, -, hqo, hql, hqw⟩ := compileStmt_fields _ _ hq
  have hjq : q.withOptions.any LoadOption.isOneToManyJoin = true := by
    rw [hqw]; exact hjoin
  have hwin : ∀ l : List Entity, applyWindow q l = l := by
    intro l
    rw [applyWindow, hqo, hql, hoff, hlim]
    simp
  refine ⟨?_, ?_, ?_⟩
  · simp [SelectBuilder.get, hq, hjq]
  · simp only [SelectBuilder.execute, hq, Except.map, hjq, if_true]
    rw [hwin, QueryResult.unique, QueryResult.scalarsAll]
    simp only []
    rw [dedupByPk_joinRows _ hnodup]
  · intro r hr
    exact dedupByPk_pk_nodup _

/-- Witness for C3's amended claim at the concrete joined-load fixture:
`execute().unique().scalars().all()` returns the two distinct users even
though the join produced three rows. -/
theorem get_joined_load_witness :
    (bJoined.execute dbJoined).map (fun r => r.unique.scalarsAll)
      = .ok (matchedRows bJoined dbJoined) :=
  (get_joined_load bJoined dbJoined rfl rfl rfl rfl (by decide)).2.1

/-- Witness for C6: `group_by("name")` compiles to a textual label
reference distinct from the column form. -/
theorem group_by_string_textual_witness :
    ((initBuilder ["id"]).groupBy [GroupByArg.str "name"]).stmtState.groupByClauses
      = [GroupByClause.textualLabelReference "name"] ∧
    compileGroupByArg (GroupByArg.str "name")
      ≠ compileGroupByArg (GroupByArg.column "name") :=
  ⟨(group_by_string_textual (initBuilder ["id"]) "name" "name" "name" "x").1,
   (group_by_string_textual (initBuilder ["id"]) "name" "name" "name" "x").2.2.1⟩

/-- Witness for C7: on a two-column entity the two `select` forms coincide
and project both declared columns in order. -/
theorem select_no_args_entity_equiv_witness :
    (initBuilder ["id", "name"]).select none
      = (initBuilder ["id", "name"]).select (some SelectArg.entity) ∧
    ((initBuilder ["id", "name"]).select none).stmtState.selectedColumns
      = ["id", "name"] :=
  ⟨(select_no_args_entity_equiv (initBuilder ["id", "name"])).1,
   (select_no_args_entity_equiv (initBuilder ["id", "name"])).2.1⟩

end FluentAlchemy
